import Mathlib

/-!
Shallow embedding of the streaming conversation controller of comhra-iced
(src/main.rs).  The `App` state, its `Message` enum and the `App.update`
reducer are translated arm by arm from the source.  External collaborators
are modelled at their interfaces:

* iced's markdown parsing is an arbitrary pure function `parse`; every
  theorem quantifies over it, so nothing depends on its internals.
* serde json serialisation is modelled as an abstract injective codec: a
  conversation file either holds a parsed chat-message array
  (`FileData.json`) or unparseable text (`FileData.invalid`).
* the file system is an association list from paths to file data; a path is
  the list of components pushed onto a path buffer, and the configuration
  directory is an arbitrary component list `config`.
* a Rust unwrap or expect failure (a panic) is the `none` result of
  `App.update`.
* the task values returned by `App.update` are flattened into a list of
  commands (`Cmd`); the network request is the `Cmd.sendChatStream`
  command, carrying the model name and the outbound message history.
-/

namespace Comhra

/-- A file-system path, as the list of components pushed onto a path
buffer (mirroring `PathBuf::push`; a pushed component is kept verbatim,
including any separator characters it happens to contain). -/
abbrev Path := List String

/-- Mirrors `ollama_rs::models::LocalModel`; only the `name` field is read
by the source. -/
structure LocalModel where
  name : String
deriving DecidableEq

/-- Mirrors `ollama_rs::generation::chat::MessageRole`. -/
inductive MessageRole
  | User
  | Assistant
  | System
deriving DecidableEq

/-- Mirrors `ollama_rs::generation::chat::ChatMessage`: a role, raw text
content, and an optional image list (always `None` in this application). -/
structure ChatMessage where
  role : MessageRole
  content : String
  images : Option (List String)
deriving DecidableEq

/-- An opaque display block produced by the markdown renderer
(`iced::widget::markdown::Item`).  Its contents are never inspected by the
controller, so a single raw field suffices; all theorems quantify over the
parsing function anyway. -/
structure MarkdownItem where
  src : String
deriving DecidableEq

/-- The abstract content of a conversation file: either a valid
serialisation of a chat-message array, or text that fails to parse as one.
This models the external serde codec at its interface. -/
inductive FileData
  | json (msgs : List ChatMessage)
  | invalid (raw : String)
deriving DecidableEq

/-- The file system visible to `SaveConversation` / `LoadConversation`: an
association list from paths to file contents; a write shadows earlier
entries for the same path. -/
abbrev FS := List (Path × FileData)

/-- Reading a file: the most recent write to the path, if any
(`fs::read_to_string` plus the serde parse, at the codec interface). -/
def fsRead (fs : FS) (p : Path) : Option FileData :=
  (fs.find? (fun e => decide (e.1 = p))).map Prod.snd

/-- Mirrors the `App` struct (the `ollama` connection handle, which holds
no conversation state, is omitted). -/
structure App where
  prompt : String
  current_model : Option LocalModel
  current_conversation : Option Path
  chats_list : List (ChatMessage × List MarkdownItem)
  models_list : List LocalModel
  conversations_list : List Path
  show_sidebar : Bool
  is_generating : Bool
deriving DecidableEq

/-- Mirrors the `Message` enum of the source. -/
inductive Message
  | SetModelsList (models : List LocalModel)
  | SetConversationsList (conversations : List Path)
  | SetConversationFile (conversation : Option Path)
  | SetModel (model : Option LocalModel)
  | ToggleSidebar
  | LinkClicked (url : String)
  | CopyChat (s : String)
  | UpdatePrompt (s : String)
  | SubmitPrompt
  | SaveConversation
  | LoadConversation
  | HandleStreamResponse (chunk : String)
  | NewChat
  | NewChatButtonPressed
  | LoadConversationList
  | ToggleIsGenerating
deriving DecidableEq

/-- The effects of the task value returned by an `App.update` arm,
flattened into a list in chain order.  `Cmd.done` is `Task::done`,
`Cmd.sendChatStream` is the chat request handed to the backend (the one
network call), `Cmd.performLoadConversationList` is the asynchronous
directory enumeration, and the remaining constructors are the clipboard
and logging side effects. -/
inductive Cmd
  | done (m : Message)
  | sendChatStream (model : String) (history : List ChatMessage)
  | performLoadConversationList
  | setClipboard (s : String)
  | printUrl (url : String)
deriving DecidableEq

/-- Mirrors `str::split_at_checked(n)` on the character list of a string:
`some` exactly when byte offset `n` lies on a character boundary at or
before the end of the string, splitting there; `none` otherwise. -/
def splitAtByteBoundary : List Char → Nat → Option (List Char × List Char)
  | cs, 0 => some ([], cs)
  | [], _ + 1 => none
  | c :: rest, n + 1 =>
      if c.utf8Size ≤ n + 1 then
        (splitAtByteBoundary rest (n + 1 - c.utf8Size)).map
          (fun p => (c :: p.1, p.2))
      else none

/-- The conversation file name derived from the prompt on first
submission: the prompt truncated by `split_at_checked(40)` when that
succeeds (byte offset 40 is a character boundary within the prompt), the
whole prompt otherwise, with the literal suffix appended.  Translated from
the `SubmitPrompt` arm; note that no character of the prompt is altered or
removed by any sanitisation step. -/
def deriveFilename (prompt : String) : String :=
  (match splitAtByteBoundary prompt.toList 40 with
   | some (title, _) => String.mk title
   | none => prompt) ++ ".json"

/-- The two fixed components the source pushes below the configuration
directory before the file name. -/
def conversationsDir (config : Path) : Path :=
  config ++ ["github.com.leo030303.comhra/", "conversations/"]

/-- Mirrors the body of the `HandleStreamResponse` arm:
`last_mut().unwrap()` (hence `none` on an empty list), push the chunk onto
the last message's content, and recompute that message's markdown items
from the full accumulated text. -/
def applyChunk (parse : String → List MarkdownItem) (chunk : String) :
    List (ChatMessage × List MarkdownItem) →
      Option (List (ChatMessage × List MarkdownItem))
  | [] => none
  | [(m, _)] =>
      some [(⟨m.role, m.content ++ chunk, m.images⟩,
             parse (m.content ++ chunk))]
  | x :: y :: rest =>
      (applyChunk parse chunk (y :: rest)).map (fun l => x :: l)

/-- The `App::update` reducer, translated arm by arm.  `parse` is the
markdown parsing function, `config` the configuration directory, `fs` the
file system touched synchronously by the save and load arms.  The result
is `none` exactly when the arm panics (an `unwrap` on `None` /
an empty list). -/
def App.update (parse : String → List MarkdownItem) (config : Path)
    (st : App) (fs : FS) : Message → Option (App × FS × List Cmd)
  | .SetModelsList ms => some ({ st with models_list := ms }, fs, [])
  | .SetConversationsList cs =>
      some ({ st with conversations_list := cs }, fs, [])
  | .SetConversationFile conv =>
      some ({ st with current_conversation := conv }, fs,
        match conv with
        | some _ => [Cmd.done .LoadConversation]
        | none => [])
  | .SetModel m => some ({ st with current_model := m }, fs, [])
  | .ToggleSidebar => some ({ st with show_sidebar := !st.show_sidebar }, fs, [])
  | .LinkClicked url => some (st, fs, [Cmd.printUrl url])
  | .CopyChat s => some (st, fs, [Cmd.setClipboard s])
  | .UpdatePrompt s => some ({ st with prompt := s }, fs, [])
  | .SubmitPrompt =>
      match st.current_model with
      | none => none
      | some model =>
        let (conv_path, reload) :=
          match st.current_conversation with
          | some p => (p, false)
          | none => (conversationsDir config ++ [deriveFilename st.prompt], true)
        let chats1 := st.chats_list ++
          [(⟨MessageRole.User, st.prompt, none⟩, parse st.prompt),
           (⟨MessageRole.Assistant, "", none⟩, [])]
        some ({ st with
                  prompt := "",
                  current_conversation := some conv_path,
                  chats_list := chats1 },
              fs,
              [Cmd.done .ToggleIsGenerating,
               Cmd.sendChatStream model.name (chats1.map Prod.fst),
               Cmd.done .SaveConversation] ++
              (if reload then [Cmd.done .LoadConversationList] else []) ++
              [Cmd.done .ToggleIsGenerating])
  | .SaveConversation =>
      match st.current_conversation with
      | none => some (st, fs, [])
      | some p =>
          some (st, (p, FileData.json (st.chats_list.map Prod.fst)) :: fs, [])
  | .LoadConversation =>
      match st.current_conversation with
      | none => none
      | some p =>
          match fsRead fs p with
          | none => some (st, fs, [])
          | some (FileData.invalid _) =>
              some ({ st with chats_list := [] }, fs, [])
          | some (FileData.json msgs) =>
              some ({ st with
                        chats_list := msgs.map (fun m => (m, parse m.content)) },
                    fs, [])
  | .HandleStreamResponse chunk =>
      (applyChunk parse chunk st.chats_list).map
        (fun l => ({ st with chats_list := l }, fs, []))
  | .NewChat =>
      some ({ st with current_conversation := none, chats_list := [] }, fs, [])
  | .NewChatButtonPressed =>
      some (st, fs, [Cmd.done .SaveConversation, Cmd.done .NewChat])
  | .LoadConversationList => some (st, fs, [Cmd.performLoadConversationList])
  | .ToggleIsGenerating =>
      some ({ st with is_generating := !st.is_generating }, fs, [])

/-- One entry of the conversations directory: a path and its last
modification time (`st_mtime`). -/
abbrev DirEntry := Path × Int

/-- Insertion of an entry into a list already ordered by modification time
descending, placing the new entry before the first entry whose time is at
most its own.  Together with `sortDesc` this realises the source's sort by
the comparator `mtime cmp, reversed`; on the tie cases exercised below this
matches the behaviour of the standard-library sort on small slices, which
keeps the input order of elements the comparator cannot distinguish. -/
def insertDesc (x : DirEntry) : List DirEntry → List DirEntry
  | [] => [x]
  | y :: ys => if y.2 ≤ x.2 then x :: y :: ys else y :: insertDesc x ys

/-- Sorting the directory entries by modification time, descending. -/
def sortDesc : List DirEntry → List DirEntry
  | [] => []
  | x :: xs => insertDesc x (sortDesc xs)

/-- The body of the asynchronous task spawned by the
`LoadConversationList` arm: the conversations directory is created when
absent (`none` becomes an empty directory), its entries are read and
sorted by modification time descending, and the sorted paths are
returned together with the directory state after creation. -/
def listSessions (dir : Option (List DirEntry)) :
    Option (List DirEntry) × List Path :=
  match dir with
  | none => (some [], [])
  | some entries => (some entries, (sortDesc entries).map Prod.fst)

/-- One observable file-system operation of a save. -/
inductive FsOp
  | write (p : Path) (d : FileData)
  | rename (src dst : Path)
deriving DecidableEq

/-- The file-system operation trace of the `SaveConversation` arm,
translated from the source: when a conversation path is set, a single
direct write of the serialised chat list to that path; nothing otherwise. -/
def saveFsOps (st : App) : List FsOp :=
  match st.current_conversation with
  | none => []
  | some p => [FsOp.write p (FileData.json (st.chats_list.map Prod.fst))]

/-- Stated from the specification's words, for comparison with
`saveFsOps`: a save trace of the shape required by the spec, namely a
write to a temporary path followed by a rename of that same path over the
destination. -/
def specAtomicSaveShape (ops : List FsOp) (dest : Path) : Bool :=
  match ops with
  | [FsOp.write t _, FsOp.rename s d] => decide (s = t) && decide (d = dest)
  | _ => false

/-- Stated from the specification's words, for comparison with the history
the `SubmitPrompt` arm actually sends: the ordered messages of the prior
turns followed by the just-appended user turn only (the empty assistant
turn excluded). -/
def specOutboundHistory (st : App) : List ChatMessage :=
  st.chats_list.map Prod.fst ++ [⟨MessageRole.User, st.prompt, none⟩]

/-- Sequential application of a list of stream chunks through the
reducer, threading state and file system, stopping with `none` as soon as
one application panics. -/
def stepChunks (parse : String → List MarkdownItem) (config : Path) :
    App × FS → List String → Option (App × FS)
  | stfs, [] => some stfs
  | (st, fs), c :: cs =>
      match App.update parse config st fs (.HandleStreamResponse c) with
      | none => none
      | some (st', fs', _) => stepChunks parse config (st', fs') cs

/-- A concrete markdown parsing function used by the closed witness and
counterexample statements (any pure function would do; the theorems
quantify over it). -/
def parse0 (s : String) : List MarkdownItem := [⟨s⟩]

/-- Convenience constructor for concrete application states in the closed
statements below. -/
def mkApp (prompt : String) (model : Option LocalModel)
    (conv : Option Path) (chats : List (ChatMessage × List MarkdownItem)) :
    App :=
  ⟨prompt, model, conv, chats, [], [], true, false⟩


/-- Concrete session state used by the round-trip witness: a saved
conversation of two turns. -/
def stSaveW : App :=
  mkApp ("") none (some ["p"])
    [(⟨MessageRole.User, "q", none⟩, []), (⟨MessageRole.Assistant, "r", none⟩, [])]

/-- Concrete session state used by the round-trip witness: the state the
conversation is loaded back into. -/
def stLoadW : App := mkApp ("x") none (some ["p"]) []


/-! ## Helper lemmas -/

/-- Applying a chunk to a non-empty chat list extends the last message's
content with the chunk and recomputes its markdown items from the full
accumulated text, leaving all earlier entries untouched. -/
theorem applyChunk_concat (parse : String → List MarkdownItem) (c : String)
    (init : List (ChatMessage × List MarkdownItem)) (m : ChatMessage)
    (md : List MarkdownItem) :
    applyChunk parse c (init ++ [(m, md)])
      = some (init ++ [(⟨m.role, m.content ++ c, m.images⟩,
                        parse (m.content ++ c))]) := by
  induction init with
  | nil => rfl
  | cons x xs ih =>
    cases xs with
    | nil => rfl
    | cons y ys =>
      simp only [List.cons_append]
      rw [show applyChunk parse c (x :: y :: (ys ++ [(m, md)]))
            = (applyChunk parse c (y :: (ys ++ [(m, md)]))).map (fun l => x :: l)
          from rfl]
      rw [← List.cons_append, ih]
      simp

/-- Two successive chunk applications agree with the application of the
concatenated chunk. -/
theorem applyChunk_bind (parse : String → List MarkdownItem) (c1 c2 : String)
    (l : List (ChatMessage × List MarkdownItem)) :
    (applyChunk parse c1 l).bind (applyChunk parse c2)
      = applyChunk parse (c1 ++ c2) l := by
  rcases List.eq_nil_or_concat l with rfl | ⟨init, mmd, rfl⟩
  · rfl
  · obtain ⟨m, md⟩ := mmd
    simp only [List.concat_eq_append]
    rw [applyChunk_concat, Option.some_bind, applyChunk_concat, applyChunk_concat]
    simp [String.append_assoc]

/-- Unfolding lemma: no chunks leave the state unchanged. -/
theorem stepChunks_nil (parse : String → List MarkdownItem) (config : Path)
    (stfs : App × FS) : stepChunks parse config stfs [] = some stfs := by
  cases stfs
  rfl

/-- Unfolding lemma: one chunk application through the reducer is exactly
`applyChunk` on the chat list. -/
theorem stepChunks_cons (parse : String → List MarkdownItem) (config : Path)
    (st : App) (fs : FS) (c : String) (cs : List String) :
    stepChunks parse config (st, fs) (c :: cs)
      = match applyChunk parse c st.chats_list with
        | none => none
        | some l => stepChunks parse config ({ st with chats_list := l }, fs) cs := by
  cases h : applyChunk parse c st.chats_list <;> simp [stepChunks, App.update, h]

/-- Inserting an entry into a list keeps the entries a permutation of the
original plus the new entry. -/
theorem insertDesc_perm (x : DirEntry) (l : List DirEntry) :
    List.Perm (insertDesc x l) (x :: l) := by
  induction l with
  | nil => exact List.Perm.refl _
  | cons y ys ih =>
    by_cases h : y.2 ≤ x.2
    · simp [insertDesc, h]
    · simp only [insertDesc, if_neg h]
      exact (ih.cons y).trans (List.Perm.swap x y ys)

/-- The sorted directory listing is a permutation of the enumerated one. -/
theorem sortDesc_perm (l : List DirEntry) : List.Perm (sortDesc l) l := by
  induction l with
  | nil => exact List.Perm.refl _
  | cons x xs ih => exact (insertDesc_perm x (sortDesc xs)).trans (ih.cons x)

/-- Insertion preserves the descending ordering by modification time. -/
theorem insertDesc_pairwise (x : DirEntry) (l : List DirEntry)
    (h : l.Pairwise (fun a b => b.2 ≤ a.2)) :
    (insertDesc x l).Pairwise (fun a b => b.2 ≤ a.2) := by
  induction l with
  | nil => simp [insertDesc]
  | cons y ys ih =>
    rw [List.pairwise_cons] at h
    obtain ⟨hy, hys⟩ := h
    by_cases hc : y.2 ≤ x.2
    · simp only [insertDesc, if_pos hc]
      rw [List.pairwise_cons]
      refine ⟨?_, List.pairwise_cons.mpr ⟨hy, hys⟩⟩
      intro z hz
      rcases List.mem_cons.mp hz with rfl | hz'
      · exact hc
      · exact le_trans (hy z hz') hc
    · simp only [insertDesc, if_neg hc]
      rw [List.pairwise_cons]
      constructor
      · intro z hz
        rcases List.mem_cons.mp ((insertDesc_perm x ys).mem_iff.mp hz) with rfl | hz'
        · exact le_of_not_le hc
        · exact hy z hz'
      · exact ih hys

/-- The directory listing sort orders entries by modification time,
descending. -/
theorem sortDesc_pairwise (l : List DirEntry) :
    (sortDesc l).Pairwise (fun a b => b.2 ≤ a.2) := by
  induction l with
  | nil => simp [sortDesc]
  | cons x xs ih => exact insertDesc_pairwise x (sortDesc xs) ih

/-! ## Claim theorems -/

/-- Claim C1 (amended): `SubmitPrompt` panics (crashes on unwrapping the
selected model) exactly when no model is selected, instead of reporting a
`NoModelSelected` error; with a model selected the submission never fails,
in particular an empty prompt is not rejected but submitted as an ordinary
prompt.  -/
theorem submit_panics_iff_no_model (parse : String → List MarkdownItem)
    (config : Path) (st : App) (fs : FS) :
    App.update parse config st fs .SubmitPrompt = none ↔ st.current_model = none := by
  cases h : st.current_model <;> cases h2 : st.current_conversation <;>
    simp [App.update, h, h2]

/-- Claim C1, witness: a concrete submission with no model selected
panics. -/
theorem submit_panics_iff_no_model_witness :
    App.update parse0 ["cfg"] (mkApp ("hello") none none []) ([] : FS) .SubmitPrompt = none :=
  (submit_panics_iff_no_model parse0 ["cfg"] (mkApp ("hello") none none []) []).mpr rfl

/-- Claim C1, counterexample to the claim as stated: submitting with no
model selected yields a panic (`none`), not a reported error; and
submitting an empty prompt with a model selected is not rejected — it
appends the user and assistant turns as usual. -/
theorem submit_guard_counterexample :
    App.update parse0 ["cfg"] (mkApp ("hello") none none []) ([] : FS) .SubmitPrompt = none
    ∧ (App.update parse0 ["cfg"] (mkApp ("") (some ⟨"m"⟩) (some ["p"]) []) ([] : FS)
          .SubmitPrompt).map (fun r => r.1.chats_list.map Prod.fst)
        = some [⟨MessageRole.User, "", none⟩, ⟨MessageRole.Assistant, "", none⟩] := by
  decide

/-- Claim C2: saving a session with a storage path writes exactly the
ordered chat messages (role and content, the markdown render blocks and
the generating flag dropped) to that path, and loading the file back
reconstructs a chat list whose ordered (role, content) pairs equal the
saved ones. -/
theorem save_load_round_trip (parse : String → List MarkdownItem) (config : Path)
    (st st2 : App) (fs : FS) (p : Path)
    (h1 : st.current_conversation = some p)
    (h2 : st2.current_conversation = some p) :
    App.update parse config st fs .SaveConversation
      = some (st, (p, FileData.json (st.chats_list.map Prod.fst)) :: fs, [])
    ∧ fsRead ((p, FileData.json (st.chats_list.map Prod.fst)) :: fs) p
      = some (FileData.json (st.chats_list.map Prod.fst))
    ∧ App.update parse config st2
        ((p, FileData.json (st.chats_list.map Prod.fst)) :: fs) .LoadConversation
      = some ({ st2 with chats_list :=
                  (st.chats_list.map Prod.fst).map (fun m => (m, parse m.content)) },
              (p, FileData.json (st.chats_list.map Prod.fst)) :: fs, [])
    ∧ ((st.chats_list.map Prod.fst).map (fun m => (m, parse m.content))).map
        (fun e => (e.1.role, e.1.content))
      = st.chats_list.map (fun e => (e.1.role, e.1.content)) := by
  refine ⟨?_, ?_, ?_, ?_⟩
  · simp [App.update, h1]
  · simp [fsRead, List.find?]
  · simp [App.update, h2, fsRead, List.find?]
  · simp [List.map_map, Function.comp]

/-- Claim C2, witness: the round trip at a concrete two-turn session. -/
theorem save_load_round_trip_witness :
    App.update parse0 ["cfg"] stSaveW ([] : FS) .SaveConversation
      = some (stSaveW, (["p"], FileData.json (stSaveW.chats_list.map Prod.fst)) :: ([] : FS), [])
    ∧ fsRead ((["p"], FileData.json (stSaveW.chats_list.map Prod.fst)) :: ([] : FS)) ["p"]
      = some (FileData.json (stSaveW.chats_list.map Prod.fst))
    ∧ App.update parse0 ["cfg"] stLoadW
        ((["p"], FileData.json (stSaveW.chats_list.map Prod.fst)) :: ([] : FS)) .LoadConversation
      = some ({ stLoadW with chats_list :=
                  (stSaveW.chats_list.map Prod.fst).map (fun m => (m, parse0 m.content)) },
              (["p"], FileData.json (stSaveW.chats_list.map Prod.fst)) :: ([] : FS), [])
    ∧ ((stSaveW.chats_list.map Prod.fst).map (fun m => (m, parse0 m.content))).map
        (fun e => (e.1.role, e.1.content))
      = stSaveW.chats_list.map (fun e => (e.1.role, e.1.content)) :=
  save_load_round_trip parse0 ["cfg"] stSaveW stLoadW [] ["p"] rfl rfl

/-- Claim C3: applying the chunks `[c1, c2, c3]` sequentially through the
reducer yields the same state as applying the single chunk `c1 ++ c2 ++ c3`;
and each single chunk application appends the chunk's text to the last
turn's content and recomputes that turn's markdown items from the full
accumulated text. -/
theorem chunk_assoc (parse : String → List MarkdownItem) (config : Path)
    (st : App) (fs : FS) (c1 c2 c3 : String) :
    stepChunks parse config (st, fs) [c1, c2, c3]
      = stepChunks parse config (st, fs) [c1 ++ c2 ++ c3]
    ∧ (∀ init m md c, st.chats_list = init ++ [(m, md)] →
        App.update parse config st fs (.HandleStreamResponse c)
          = some ({ st with chats_list :=
                      init ++ [(⟨m.role, m.content ++ c, m.images⟩,
                                parse (m.content ++ c))] }, fs, [])) := by
  constructor
  · rcases List.eq_nil_or_concat st.chats_list with hnil | ⟨init, mmd, hcat⟩
    · simp [stepChunks_cons, hnil, applyChunk]
    · obtain ⟨m, md⟩ := mmd
      rw [List.concat_eq_append] at hcat
      simp only [stepChunks_cons, hcat, applyChunk_concat, stepChunks_nil]
      simp [String.append_assoc]
  · intro init m md c h
    simp [App.update, h, applyChunk_concat]

/-- Claim C3, witness: one concrete chunk application extends the single
assistant turn and recomputes its markdown items. -/
theorem chunk_assoc_witness :
    App.update parse0 ["cfg"]
        (mkApp ("") none none [(⟨MessageRole.Assistant, "ab", none⟩, [])]) ([] : FS)
        (.HandleStreamResponse ("!"))
      = some ({ mkApp ("") none none [(⟨MessageRole.Assistant, "ab", none⟩, [])] with
                  chats_list := [] ++ [(⟨MessageRole.Assistant, "ab" ++ "!", none⟩,
                    parse0 ("ab" ++ "!"))] },
              ([] : FS), []) :=
  (chunk_assoc parse0 ["cfg"]
      (mkApp ("") none none [(⟨MessageRole.Assistant, "ab", none⟩, [])]) []
      ("a") ("b") ("c")).2
    [] ⟨MessageRole.Assistant, "ab", none⟩ [] ("!") rfl

/-- Claim C4 (amended): loading a conversation file whose content fails to
parse replaces the current session's chat list with the empty conversation
and reports no error (there is no failure result in the message
vocabulary); only a missing file leaves the chat list unchanged. -/
theorem load_invalid_json_clears_chats (parse : String → List MarkdownItem)
    (config : Path) (st : App) (fs : FS) (p : Path) (raw : String)
    (h1 : st.current_conversation = some p)
    (h2 : fsRead fs p = some (FileData.invalid raw)) :
    App.update parse config st fs .LoadConversation
      = some ({ st with chats_list := [] }, fs, []) := by
  simp [App.update, h1, h2]

/-- Claim C4, witness: a concrete load of an unparseable file empties the
chat list. -/
theorem load_invalid_json_clears_chats_witness :
    App.update parse0 ["cfg"]
        (mkApp ("") none (some ["p"]) [(⟨MessageRole.User, "x", none⟩, [])])
        [(["p"], FileData.invalid ("oops"))] .LoadConversation
      = some ({ mkApp ("") none (some ["p"]) [(⟨MessageRole.User, "x", none⟩, [])] with
                  chats_list := [] },
              [(["p"], FileData.invalid ("oops"))], []) :=
  load_invalid_json_clears_chats parse0 ["cfg"]
    (mkApp ("") none (some ["p"]) [(⟨MessageRole.User, "x", none⟩, [])])
    [(["p"], FileData.invalid ("oops"))] ["p"] ("oops") rfl rfl

/-- Claim C4, counterexample to the claim as stated: loading a file of
invalid content silently substitutes the empty conversation for a
non-empty chat list, with no failure result. -/
theorem load_invalid_json_counterexample :
    App.update parse0 ["cfg"]
        (mkApp ("") none (some ["p"]) [(⟨MessageRole.User, "x", none⟩, [])])
        [(["p"], FileData.invalid ("oops"))] .LoadConversation
      = some (mkApp ("") none (some ["p"]) [],
              [(["p"], FileData.invalid ("oops"))], [])
    ∧ (mkApp ("") none (some ["p"]) [(⟨MessageRole.User, "x", none⟩, [])]).chats_list ≠ [] := by
  decide

/-- Claim C5 (amended): the conversation listing creates the directory
when absent, and returns the enumerated files ordered by last-modified
time descending (the returned list is the mtime-descending sort of the
entries, a permutation of them); entries with equal modification times
carry no secondary ordering key. -/
theorem listing_sorted_mtime_desc (dir : Option (List DirEntry)) :
    (listSessions dir).1.isSome = true
    ∧ (listSessions dir).2 = (sortDesc (dir.getD [])).map Prod.fst
    ∧ (sortDesc (dir.getD [])).Pairwise (fun a b => b.2 ≤ a.2)
    ∧ List.Perm (sortDesc (dir.getD [])) (dir.getD []) := by
  refine ⟨?_, ?_, sortDesc_pairwise _, sortDesc_perm _⟩
  · cases dir <;> rfl
  · cases dir <;> rfl

/-- Claim C5, counterexample to the tie-breaking part of the claim as
stated: two directories holding the same two files with equal modification
times, enumerated in opposite orders, are listed in different orders — so
the relative order of equal-mtime entries is inherited from the
enumeration order, not decided by a deterministic secondary key such as
the path. -/
theorem listing_tie_order_counterexample :
    (listSessions (some [(["a"], 5), (["b"], 5)])).2 = [["a"], ["b"]]
    ∧ (listSessions (some [(["b"], 5), (["a"], 5)])).2 = [["b"], ["a"]]
    ∧ List.Perm [((["a"] : Path), (5 : Int)), (["b"], 5)] [(["b"], 5), (["a"], 5)]
    ∧ (["a"] : Path) ≠ ["b"] := by
  refine ⟨by decide, by decide, List.Perm.swap _ _ _, by decide⟩

/-- Claim C6 (amended): on a submission with no storage identifier, the
assigned identifier is placed under the conversations directory and is the
prompt truncated at byte offset 40 when that offset is a character
boundary within the prompt — the whole prompt otherwise (also when the
prompt is shorter) — with the json suffix appended and no sanitisation of
the characters. -/
theorem filename_derivation (parse : String → List MarkdownItem) (config : Path)
    (st : App) (fs : FS) (model : LocalModel)
    (hm : st.current_model = some model)
    (hc : st.current_conversation = none) :
    (App.update parse config st fs .SubmitPrompt).map
        (fun r => r.1.current_conversation)
      = some (some (conversationsDir config ++ [deriveFilename st.prompt]))
    ∧ (∀ t r, splitAtByteBoundary st.prompt.toList 40 = some (t, r) →
        deriveFilename st.prompt = String.mk t ++ ".json")
    ∧ (splitAtByteBoundary st.prompt.toList 40 = none →
        deriveFilename st.prompt = st.prompt ++ ".json") := by
  refine ⟨?_, ?_, ?_⟩
  · simp [App.update, hm, hc]
  · intro t r h
    unfold deriveFilename
    rw [h]
  · intro h
    unfold deriveFilename
    rw [h]

/-- Claim C6, witness: a concrete first submission assigns the derived
identifier under the conversations directory. -/
theorem filename_derivation_witness :
    (App.update parse0 ["cfg"] (mkApp ("Hi") (some ⟨"m"⟩) none []) ([] : FS)
        .SubmitPrompt).map (fun r => r.1.current_conversation)
      = some (some (conversationsDir ["cfg"] ++ [deriveFilename ("Hi")]))
    ∧ (∀ t r, splitAtByteBoundary ("Hi").toList 40 = some (t, r) →
        deriveFilename ("Hi") = String.mk t ++ ".json")
    ∧ (splitAtByteBoundary ("Hi").toList 40 = none →
        deriveFilename ("Hi") = ("Hi") ++ ".json") :=
  filename_derivation parse0 ["cfg"] (mkApp ("Hi") (some ⟨"m"⟩) none []) [] ⟨"m"⟩ rfl rfl

/-- Claim C6, counterexample to the claim as stated: a path separator in
the prompt reaches the identifier unaltered (no sanitisation), and a
prompt whose byte offset 40 falls inside a multi-byte character is not
truncated to its first 40 characters — the whole 41-character prompt is
used. -/
theorem filename_derivation_counterexample :
    ('/' ∈ (deriveFilename ("a/b")).toList)
    ∧ (App.update parse0 ["cfg"] (mkApp ("a/b") (some ⟨"m"⟩) none []) ([] : FS)
          .SubmitPrompt).map (fun r => r.1.current_conversation)
        = some (some ["cfg", "github.com.leo030303.comhra/", "conversations/", "a/b.json"])
    ∧ deriveFilename (String.mk (List.replicate 39 'a' ++ ['é', 'b']))
        = String.mk (List.replicate 39 'a' ++ ['é', 'b']) ++ ".json"
    ∧ (List.replicate 39 'a' ++ ['é', 'b']).length = 41
    ∧ deriveFilename (String.mk (List.replicate 39 'a' ++ ['é', 'b']))
        ≠ String.mk ((List.replicate 39 'a' ++ ['é', 'b']).take 40) ++ ".json" := by
  decide

/-- Claim C7 (amended): the outbound history sent to the backend consists
of the ordered messages of all turns after the two appends — the prior
turns, the just-appended user turn, and the just-appended empty assistant
turn included last. -/
theorem outbound_history_includes_assistant (parse : String → List MarkdownItem)
    (config : Path) (st : App) (fs : FS) (model : LocalModel) (p : Path)
    (hm : st.current_model = some model)
    (hc : st.current_conversation = some p) :
    App.update parse config st fs .SubmitPrompt
      = some ({ st with
                  prompt := "", current_conversation := some p,
                  chats_list := st.chats_list ++
                    [(⟨MessageRole.User, st.prompt, none⟩, parse st.prompt),
                     (⟨MessageRole.Assistant, "", none⟩, [])] },
              fs,
              [Cmd.done .ToggleIsGenerating,
               Cmd.sendChatStream model.name
                 (st.chats_list.map Prod.fst ++
                  [⟨MessageRole.User, st.prompt, none⟩,
                   ⟨MessageRole.Assistant, "", none⟩]),
               Cmd.done .SaveConversation,
               Cmd.done .ToggleIsGenerating]) := by
  simp [App.update, hm, hc]

/-- Claim C7, witness: a concrete submission sends the history with the
empty assistant message as its last element. -/
theorem outbound_history_includes_assistant_witness :
    App.update parse0 ["cfg"] (mkApp ("Hi") (some ⟨"m"⟩) (some ["p"]) []) ([] : FS) .SubmitPrompt
      = some ({ mkApp ("Hi") (some ⟨"m"⟩) (some ["p"]) [] with
                  prompt := "", current_conversation := some ["p"],
                  chats_list := (mkApp ("Hi") (some ⟨"m"⟩) (some ["p"]) []).chats_list ++
                    [(⟨MessageRole.User, "Hi", none⟩, parse0 ("Hi")),
                     (⟨MessageRole.Assistant, "", none⟩, [])] },
              ([] : FS),
              [Cmd.done .ToggleIsGenerating,
               Cmd.sendChatStream ("m")
                 ((mkApp ("Hi") (some ⟨"m"⟩) (some ["p"]) []).chats_list.map Prod.fst ++
                  [⟨MessageRole.User, "Hi", none⟩, ⟨MessageRole.Assistant, "", none⟩]),
               Cmd.done .SaveConversation,
               Cmd.done .ToggleIsGenerating]) :=
  outbound_history_includes_assistant parse0 ["cfg"]
    (mkApp ("Hi") (some ⟨"m"⟩) (some ["p"]) []) [] ⟨"m"⟩ ["p"] rfl rfl

/-- Claim C7, counterexample to the claim as stated: the concrete request
history ends with the just-appended empty assistant message, and differs
from the history the specification prescribes (prior turns plus the user
turn only). -/
theorem outbound_history_counterexample :
    (App.update parse0 ["cfg"] (mkApp ("Hi") (some ⟨"m"⟩) (some ["p"]) []) ([] : FS)
        .SubmitPrompt).map (fun r => r.2.2)
      = some [Cmd.done .ToggleIsGenerating,
              Cmd.sendChatStream ("m")
                [⟨MessageRole.User, "Hi", none⟩, ⟨MessageRole.Assistant, "", none⟩],
              Cmd.done .SaveConversation, Cmd.done .ToggleIsGenerating]
    ∧ [⟨MessageRole.User, "Hi", none⟩, (⟨MessageRole.Assistant, "", none⟩ : ChatMessage)]
        ≠ specOutboundHistory (mkApp ("Hi") (some ⟨"m"⟩) (some ["p"]) []) := by
  decide

/-- Claim C8 (amended): saving a session with a storage path performs a
single direct write of the serialised chat list to the destination path;
the operation trace never has the write-to-temporary-then-rename shape the
specification requires. -/
theorem save_single_direct_write (st : App) (p : Path)
    (h : st.current_conversation = some p) :
    saveFsOps st = [FsOp.write p (FileData.json (st.chats_list.map Prod.fst))]
    ∧ specAtomicSaveShape (saveFsOps st) p = false := by
  constructor
  · simp [saveFsOps, h]
  · simp [saveFsOps, h, specAtomicSaveShape]

/-- Claim C8, witness: the trace of a concrete save is one direct write. -/
theorem save_single_direct_write_witness :
    saveFsOps (mkApp ("") none (some ["c.json"]) [(⟨MessageRole.User, "hi", none⟩, [])])
      = [FsOp.write ["c.json"] (FileData.json ((mkApp ("") none (some ["c.json"])
          [(⟨MessageRole.User, "hi", none⟩, [])]).chats_list.map Prod.fst))]
    ∧ specAtomicSaveShape
        (saveFsOps (mkApp ("") none (some ["c.json"])
          [(⟨MessageRole.User, "hi", none⟩, [])])) ["c.json"] = false :=
  save_single_direct_write
    (mkApp ("") none (some ["c.json"]) [(⟨MessageRole.User, "hi", none⟩, [])])
    ["c.json"] rfl

/-- Claim C8, counterexample to the claim as stated: a concrete save
writes directly to the destination, and its trace does not have the
temporary-write-then-rename shape. -/
theorem save_not_atomic_counterexample :
    saveFsOps (mkApp ("x") none (some ["d.json"]) [(⟨MessageRole.User, "yo", none⟩, [])])
      = [FsOp.write ["d.json"] (FileData.json [⟨MessageRole.User, "yo", none⟩])]
    ∧ specAtomicSaveShape
        (saveFsOps (mkApp ("x") none (some ["d.json"])
          [(⟨MessageRole.User, "yo", none⟩, [])]))
        ["d.json"] = false := by
  decide

/-- Claim C9: a submission on a session whose storage identifier is
already assigned leaves the identifier unchanged in the resulting state. -/
theorem identifier_stable (parse : String → List MarkdownItem) (config : Path)
    (st : App) (fs : FS) (p : Path) (st' : App) (fs' : FS) (cmds : List Cmd)
    (hconv : st.current_conversation = some p)
    (hupd : App.update parse config st fs .SubmitPrompt = some (st', fs', cmds)) :
    st'.current_conversation = some p := by
  cases hm : st.current_model with
  | none => simp [App.update, hm] at hupd
  | some model =>
      simp only [App.update, hm, hconv, Option.some.injEq, Prod.mk.injEq] at hupd
      obtain ⟨h1, _, _⟩ := hupd
      subst h1
      rfl

/-- Claim C9, witness: a concrete submission on a session with an assigned
identifier keeps it. -/
theorem identifier_stable_witness :
    (mkApp ("") (some ⟨"m"⟩) (some ["p"])
        [(⟨MessageRole.User, "Hi", none⟩, parse0 ("Hi")),
         (⟨MessageRole.Assistant, "", none⟩, [])]).current_conversation
      = some ["p"] :=
  identifier_stable parse0 ["cfg"] (mkApp ("Hi") (some ⟨"m"⟩) (some ["p"]) []) []
    ["p"]
    (mkApp ("") (some ⟨"m"⟩) (some ["p"])
        [(⟨MessageRole.User, "Hi", none⟩, parse0 ("Hi")),
         (⟨MessageRole.Assistant, "", none⟩, [])])
    []
    [Cmd.done .ToggleIsGenerating,
     Cmd.sendChatStream ("m")
       [⟨MessageRole.User, "Hi", none⟩, ⟨MessageRole.Assistant, "", none⟩],
     Cmd.done .SaveConversation, Cmd.done .ToggleIsGenerating]
    rfl (by decide)

/-- Claim C10: applying a stream chunk panics exactly on an empty chat
list (the unwrap of the last element), and `NewChat` produces such an
empty chat list — so a chunk arriving after `NewChat` cleared the
conversation crashes instead of reporting an error. -/
theorem stream_chunk_empty_panics (parse : String → List MarkdownItem)
    (config : Path) (st : App) (fs : FS) (c : String) :
    (st.chats_list = [] →
      App.update parse config st fs (.HandleStreamResponse c) = none)
    ∧ App.update parse config st fs .NewChat
        = some ({ st with current_conversation := none, chats_list := [] }, fs, []) := by
  constructor
  · intro h
    simp [App.update, h, applyChunk]
  · rfl

/-- Claim C10, witness: a chunk delivered to a concrete state with no
turns panics. -/
theorem stream_chunk_empty_panics_witness :
    App.update parse0 ["cfg"] (mkApp ("") none none []) ([] : FS)
      (.HandleStreamResponse ("x")) = none :=
  (stream_chunk_empty_panics parse0 ["cfg"] (mkApp ("") none none []) [] ("x")).1 rfl

end Comhra
